import Mathlib

/-!
Verification of the GradeTrainer orchestration core and its frontend logic.

The repository ships the React frontend (`frontend/src`); the FastAPI/Celery
backend that implements the job lifecycle manager, task dispatcher, log
aggregator, resource monitor and deployment manager is referenced by the
frontend's API client but its sources are not present.  Pure frontend
functions are embedded directly from the TypeScript source; the missing
backend operations are modelled from the specification, each such definition
carrying a doc comment that says so.

Machine numbers from the TypeScript source are embedded as `Int`/`Nat` for
counters and `ℚ` for fractional quantities (learning rate, loss, ratios);
JavaScript `Math.round` on these values coincides with Mathlib's `round`
(both are `⌊x + 1/2⌋`).
-/

/-! ## Job status (frontend/src/types/index.ts, `TrainingJob.status`) -/

inductive JobStatus where
  | pending
  | running
  | completed
  | failed
  | stopped
deriving DecidableEq, Repr

/-! ## Training configuration and submit validation
(frontend/src/components/TrainingConfig.tsx) -/

/-- Embeds the `training_params` object of `TrainingConfig.tsx` (also the
`TrainingParams` interface of `types/index.ts`). -/
structure TrainingParams where
  model_name : String
  epochs : Int
  batch_size : Int
  learning_rate : ℚ
  use_fp16 : Bool
  use_quantization : Bool
  lora_r : Int
  lora_alpha : Int
  lora_dropout : ℚ
deriving DecidableEq, Repr

/-- Embeds the `config` state object of `TrainingConfig.tsx`. -/
structure ConfigForm where
  job_name : String
  training_params : TrainingParams
deriving DecidableEq, Repr

/-- Embeds `validateConfig` of `TrainingConfig.tsx` (lines 72-96): each range
check pushes its message; the checks are evaluated in source order. -/
def validateConfig (config : ConfigForm) : List String :=
  (if config.job_name.trim = "" then ["请输入任务名称"] else []) ++
  (if config.training_params.epochs < 1 ∨ config.training_params.epochs > 50 then
    ["训练轮数必须在 1-50 之间"] else []) ++
  (if config.training_params.batch_size < 1 ∨ config.training_params.batch_size > 32 then
    ["批次大小必须在 1-32 之间"] else []) ++
  (if config.training_params.learning_rate ≤ 0 ∨ config.training_params.learning_rate ≥ 1 then
    ["学习率必须在 0-1 之间"] else []) ++
  (if config.training_params.lora_r < 4 ∨ config.training_params.lora_r > 128 then
    ["LoRA Rank 必须在 4-128 之间"] else [])

/-- Embeds the `uploadedFile` prop of `TrainingConfig.tsx`. -/
structure UploadedFile where
  filename : String
  file_path : String
deriving DecidableEq, Repr

/-- The observable outcome of `handleSubmit` in `TrainingConfig.tsx`:
either it sets a validation error and returns, or it complains about the
missing upload, or it issues the `createTrainingJob` POST request. -/
inductive SubmitOutcome where
  | validationError (messages : List String)
  | missingFileError
  | jobCreateRequest (jobData : ConfigForm) (filePath : String)
deriving DecidableEq, Repr

/-- Embeds `handleSubmit` of `TrainingConfig.tsx` (lines 98-117): validation
errors short-circuit before any API call; the request is issued only when
validation passes and an uploaded file is present. -/
def handleSubmit (config : ConfigForm) (uploadedFile : Option UploadedFile) : SubmitOutcome :=
  let validationErrors := validateConfig config
  if validationErrors.length > 0 then
    .validationError validationErrors
  else
    match uploadedFile with
    | none => .missingFileError
    | some f => .jobCreateRequest config f.file_path

/-- A configuration parameter is out of its documented range
(epochs 1..50, batch size 1..32, learning rate strictly between 0 and 1,
LoRA rank 4..128), as checked by `validateConfig`. -/
def outOfRange (p : TrainingParams) : Prop :=
  p.epochs < 1 ∨ p.epochs > 50 ∨ p.batch_size < 1 ∨ p.batch_size > 32 ∨
  p.learning_rate ≤ 0 ∨ p.learning_rate ≥ 1 ∨ p.lora_r < 4 ∨ p.lora_r > 128

/-! ## Progress percentages (frontend/src/components/TrainingProgress.tsx) -/

/-- Embeds the `TrainingProgress` interface of `types/index.ts` (the
`progress` state of `TrainingProgress.tsx` is this or `null`). -/
structure ProgressSnapshot where
  job_id : Nat
  current_epoch : ℚ
  total_epochs : ℚ
  current_step : ℚ
  total_steps : ℚ
  current_loss : Option ℚ
  average_loss : Option ℚ
  learning_rate : Option ℚ
  elapsed_time : Option ℚ
  estimated_remaining : Option ℚ

/-- Embeds `getProgressPercentage` of `TrainingProgress.tsx` (lines 103-106):
`if (!progress || progress.total_epochs === 0) return 0` then
`Math.round((current_epoch / total_epochs) * 100)`. -/
def getProgressPercentage (progress : Option ProgressSnapshot) : ℤ :=
  match progress with
  | none => 0
  | some p =>
    if p.total_epochs = 0 then 0
    else round (p.current_epoch / p.total_epochs * 100)

/-- Embeds `getStepProgressPercentage` of `TrainingProgress.tsx`
(lines 108-111). -/
def getStepProgressPercentage (progress : Option ProgressSnapshot) : ℤ :=
  match progress with
  | none => 0
  | some p =>
    if p.total_steps = 0 then 0
    else round (p.current_step / p.total_steps * 100)

/-! ## Dashboard status badge and recent-jobs label
(frontend/src/components/Dashboard.tsx) -/

/-- Embeds `getStatusBadge` of `Dashboard.tsx` (lines 76-84): a lookup in
`statusMap` falling back to `'status-pending'` for any unknown status. -/
def getStatusBadge (status : String) : String :=
  if status = "pending" then "status-pending"
  else if status = "running" then "status-running"
  else if status = "completed" then "status-completed"
  else if status = "failed" then "status-failed"
  else "status-pending"

/-- Embeds the status label of the recent-jobs list in `Dashboard.tsx`
(lines 223-226): four `job.status === '...' && '...'` clauses, so any other
status renders no label text. -/
def recentJobStatusLabel (status : String) : Option String :=
  if status = "pending" then some "等待中"
  else if status = "running" then some "运行中"
  else if status = "completed" then some "已完成"
  else if status = "failed" then some "失败"
  else none

/-! ## Job action buttons (frontend/src/components/TrainingProgress.tsx) -/

/-- Embeds the stop-button guard of `TrainingProgress.tsx` (line 228):
`selectedJob.status === 'running'`. -/
def showsStopButton (status : JobStatus) : Bool :=
  status = JobStatus.running

/-- Embeds the restart-button guard of `TrainingProgress.tsx` (line 238):
`selectedJob.status === 'failed' || selectedJob.status === 'stopped'`. -/
def showsRestartButton (status : JobStatus) : Bool :=
  status = JobStatus.failed || status = JobStatus.stopped

/-! ## Model artifacts and the Deployment Manager -/

/-- Embeds the `ModelInfo` interface of `types/index.ts` (the persisted
`ModelArtifact` of spec §3), restricted to the fields the deployment
operations touch. -/
structure ModelArtifact where
  job_id : Nat
  model_path : String
  is_deployed : Bool
  api_endpoint : Option String
deriving DecidableEq, Repr

/-- The error taxonomy of spec §7 for the operations modelled here. -/
inductive ApiError where
  | InvalidConfiguration
  | InvalidTransition
  | NotRunning
  | NotCompleted
  | JobNotFound
deriving DecidableEq, Repr

/-- Modelled from the spec: `deploy(jobId)` of the Deployment Manager
(§4.5), whose backend source is not in the repository.  It fails with
`NotCompleted` unless the job's artifact exists; otherwise it marks the
artifact deployed and assigns the serving endpoint. -/
def deployArtifact (artifact : Option ModelArtifact) (endpoint : String) :
    Except ApiError ModelArtifact :=
  match artifact with
  | none => .error .NotCompleted
  | some a => .ok { a with is_deployed := true, api_endpoint := some endpoint }

/-- Modelled from the spec: `undeploy(jobId)` of the Deployment Manager
(§4.5), whose backend source is not in the repository.  It marks the
artifact not-deployed and clears the endpoint. -/
def undeployArtifact (a : ModelArtifact) : ModelArtifact :=
  { a with is_deployed := false, api_endpoint := none }

/-! ## Job records and the Job Lifecycle Manager -/

/-- Modelled from the spec: the persisted `TrainingJob` row (§3) with the
fields the lifecycle operations read and write.  The frontend `TrainingJob`
interface (`types/index.ts` lines 3-24) carries the same `status`,
`created_at`, `started_at` fields; `attempt_count` and the cancellation
flag appear only in the spec because the backend source is not in the
repository. -/
structure JobRec where
  id : Nat
  job_name : String
  upload_filename : String
  status : JobStatus
  params : TrainingParams
  attempt_count : Nat
  created_at : Nat
  started_at : Option Nat
  completed_at : Option Nat
  cancel_requested : Bool
  artifact : Option ModelArtifact
deriving DecidableEq, Repr

/-- Finalizing a `pending` job to `stopped` (spec §4.1): the status flips
directly, no start timestamp is ever written. -/
def stopPendingJob (k : JobRec) : JobRec :=
  { k with status := .stopped, cancel_requested := true }

/-- Setting the cancellation flag on a `running` job (spec §4.1); the
Dispatcher's cooperative check later finalizes the status. -/
def flagCancel (k : JobRec) : JobRec :=
  { k with cancel_requested := true }

/-- Re-entering `pending` on restart (spec §4.1): `attempt_count += 1`. -/
def restartJob (k : JobRec) : JobRec :=
  { k with status := .pending, attempt_count := k.attempt_count + 1,
           cancel_requested := false }

/-- The Dispatcher claiming a job (spec §4.2): transition to `running` and
record the start time. -/
def startJob (now : Nat) (k : JobRec) : JobRec :=
  { k with status := .running, started_at := some now }

/-- The Dispatcher finalizing an attempt (spec §4.2) with one of the three
terminal outcomes. -/
def finishJob (outcome : JobStatus) (k : JobRec) : JobRec :=
  { k with status := outcome }

/-- Modelled from the spec: `requestStop(jobId)` of the Job Lifecycle
Manager (§4.1, §4.3 of the API), whose backend source is not in the
repository.  `NotRunning` unless the job is `pending`/`running`; a
`pending` job finalizes to `stopped` immediately, a `running` job only
gets its cancellation flag set. -/
def requestStop (j : JobRec) : Except ApiError JobRec :=
  match j.status with
  | .pending => .ok (stopPendingJob j)
  | .running => .ok (flagCancel j)
  | _ => .error .NotRunning

/-- Modelled from the spec: `requestRestart(jobId)` of the Job Lifecycle
Manager (§4.1), whose backend source is not in the repository.  Allowed
only from `failed`/`stopped`; `InvalidTransition` otherwise. -/
def requestRestart (j : JobRec) : Except ApiError JobRec :=
  match j.status with
  | .failed => .ok (restartJob j)
  | .stopped => .ok (restartJob j)
  | _ => .error .InvalidTransition

/-- Modelled from the spec: `submit(config, dataset_ref)` of the Job
Lifecycle Manager (§4.1), whose backend source is not in the repository.
It validates the configuration ranges (the same checks as the frontend's
`validateConfig`) and persists a fresh `pending` job with no start
timestamp and attempt count 0. -/
def submitJob (form : ConfigForm) (fileRef : String) (id now : Nat) :
    Except ApiError JobRec :=
  if (validateConfig form).length > 0 then
    .error .InvalidConfiguration
  else
    .ok { id := id, job_name := form.job_name, upload_filename := fileRef,
          status := .pending,
          params := form.training_params, attempt_count := 0,
          created_at := now, started_at := none, completed_at := none,
          cancel_requested := false, artifact := none }

/-! ## Progress & Log Aggregator (reads: frontend/src/services/api.ts
`getTrainingLogs`; display: TrainingProgress.tsx `fetchJobDetails`) -/

/-- Embeds the `log_level` field of the `TrainingLog` interface
(`types/index.ts` lines 43-50). -/
inductive LogLevel where
  | info
  | warning
  | error
deriving DecidableEq, Repr

/-- Embeds the `TrainingLog` interface of `types/index.ts`, restricted to
the fields the log queries touch. -/
structure TrainingLogEntry where
  id : Nat
  job_id : Nat
  log_level : LogLevel
  message : String
deriving DecidableEq, Repr

/-- Modelled from the spec: `reportLog` appends a `TrainingLog` to the
append-only store (§4.3, §3); the aggregator's backend source is not in
the repository. -/
def appendLog (store : List TrainingLogEntry) (e : TrainingLogEntry) :
    List TrainingLogEntry :=
  store ++ [e]

/-- The level filter of `getLogs` (`log_level` query parameter of
`apiService.getTrainingLogs`): absent means every entry matches. -/
def levelMatches (levelFilter : Option LogLevel) (e : TrainingLogEntry) : Bool :=
  match levelFilter with
  | none => true
  | some lv => e.log_level = lv

/-- The append-order log sequence of one job within the shared store. -/
def jobLogs (store : List TrainingLogEntry) (jobId : Nat) : List TrainingLogEntry :=
  store.filter (fun e => e.job_id = jobId)

/-- Modelled from the spec: `getLogs(jobId, pagination, levelFilter?)` of
the aggregator (§4.3), whose backend source is not in the repository; the
frontend calls it through `apiService.getTrainingLogs(jobId, skip, limit,
logLevel)` (`services/api.ts` lines 503-507).  It pages through the job's
entries in persisted append order. -/
def getLogs (store : List TrainingLogEntry) (jobId skip limit : Nat)
    (levelFilter : Option LogLevel) : List TrainingLogEntry :=
  (((jobLogs store jobId).filter (levelMatches levelFilter)).drop skip).take limit

/-- Embeds `fetchJobDetails` of `TrainingProgress.tsx` (lines 60-72): it
fetches `getTrainingLogs(jobId, 0, 100)` and displays `logsData.reverse()`
so the newest entry is first. -/
def displayedLogs (store : List TrainingLogEntry) (jobId : Nat) :
    List TrainingLogEntry :=
  (getLogs store jobId 0 100 none).reverse

/-! ## Resource Monitor and the Dashboard GPU section -/

/-- Embeds the per-device record of `SystemStatus.gpu_usage.devices`
(`types/index.ts` lines 123-137). -/
structure GpuDevice where
  index : Nat
  name : String
  memory_total : Nat
  memory_used : Nat
  gpu_percent : ℚ
  memory_percent : ℚ
  temperature : Option ℚ
deriving DecidableEq, Repr

/-- Embeds `SystemStatus.gpu_usage` of `types/index.ts` (lines 120-139):
an availability flag, optional device list and an optional error field. -/
structure GpuUsage where
  available : Bool
  device_count : Option Nat
  devices : List GpuDevice
  error : Option String
deriving DecidableEq, Repr

/-- The outcome of querying the accelerator: either a (possibly empty)
device list or a failure message. -/
inductive GpuQueryResult where
  | ok (devices : List GpuDevice)
  | failed (message : String)
deriving DecidableEq, Repr

/-- Modelled from the spec: the Resource Monitor's accelerator section of
`snapshot()` (§4.4), whose backend source is not in the repository.  A
failing query or an absent accelerator yields `available := false` (with
the error recorded) instead of an exception — the function is total. -/
def gpuSection : GpuQueryResult → GpuUsage
  | .ok [] => { available := false, device_count := some 0, devices := [], error := none }
  | .ok ds => { available := true, device_count := some ds.length, devices := ds, error := none }
  | .failed m => { available := false, device_count := none, devices := [], error := some m }

/-- What the Dashboard renders in its GPU card. -/
inductive GpuPanel where
  | gpuStats (usage : GpuUsage)
  | noGpuMessage
deriving DecidableEq, Repr

/-- Embeds the GPU branch of `Dashboard.tsx` (lines 129-170):
`systemStatus?.gpu_usage?.available ?` renders the GPU bars, any other
case renders the 未检测到 GPU placeholder. -/
def dashboardGpuSection (gpu_usage : Option GpuUsage) : GpuPanel :=
  match gpu_usage with
  | some u => if u.available then .gpuStats u else .noGpuMessage
  | none => .noGpuMessage

/-! ## The orchestration state machine (Job Store + Task Dispatcher)

Modelled from the spec (§3, §4.1, §4.2, §5): the backend Job Store and
Task Dispatcher sources are not in the repository.  The shared state is
the persisted job list plus the dispatcher's transient set of live
attempts (`active`, the worker-slot claims) and the configured pool
size.  Each `Step` constructor is one atomic operation of §4.1/§4.2. -/

structure SysState where
  store : List JobRec
  active : List Nat
  poolSize : Nat
deriving Repr

/-- Point update of the job with the given id in the store (the Job Store's
serialized per-row write, spec §5). -/
def updateJob (store : List JobRec) (id : Nat) (f : JobRec → JobRec) :
    List JobRec :=
  store.map (fun j => if j.id = id then f j else j)

/-- Modelled from the spec: the atomic transitions of the Lifecycle
Manager and Dispatcher (§4.1, §4.2), whose backend source is not in the
repository.  `claim` requires a free worker slot; `finish` releases the
slot exactly once; stop/restart reuse the record transitions of
`requestStop`/`requestRestart`. -/
inductive Step : SysState → SysState → Prop where
  | submit (s : SysState) (form : ConfigForm) (fileRef : String)
      (id now : Nat) (j : JobRec)
      (hok : submitJob form fileRef id now = .ok j)
      (hfresh : ∀ k ∈ s.store, k.id ≠ id) :
      Step s { s with store := s.store ++ [j] }
  | claim (s : SysState) (id now : Nat) (j : JobRec)
      (hmem : j ∈ s.store) (hid : j.id = id) (hpend : j.status = .pending)
      (hslot : s.active.length < s.poolSize) :
      Step s { s with store := updateJob s.store id (startJob now),
                      active := id :: s.active }
  | finish (s : SysState) (id : Nat) (outcome : JobStatus)
      (hout : outcome = .completed ∨ outcome = .failed ∨ outcome = .stopped)
      (hmem : id ∈ s.active) :
      Step s { s with store := updateJob s.store id (finishJob outcome),
                      active := s.active.erase id }
  | stopPending (s : SysState) (id : Nat) (j : JobRec)
      (hmem : j ∈ s.store) (hid : j.id = id) (hpend : j.status = .pending) :
      Step s { s with store := updateJob s.store id stopPendingJob }
  | stopRunning (s : SysState) (id : Nat) (j : JobRec)
      (hmem : j ∈ s.store) (hid : j.id = id) (hrun : j.status = .running) :
      Step s { s with store := updateJob s.store id flagCancel }
  | restart (s : SysState) (id : Nat) (j : JobRec)
      (hmem : j ∈ s.store) (hid : j.id = id)
      (hfs : j.status = .failed ∨ j.status = .stopped) :
      Step s { s with store := updateJob s.store id restartJob }

/-- Reachability under the orchestration steps. -/
def Reach : SysState → SysState → Prop :=
  Relation.ReflTransGen Step

/-- The core invariant of spec §3/§4.2/§5: live attempts are pairwise for
distinct jobs, a live attempt's job is `running` and vice versa, job ids
are unique in the store, and the dispatcher never holds more attempts
than worker slots. -/
structure SysInv (s : SysState) : Prop where
  activeNodup : s.active.Nodup
  activeRunning : ∀ id ∈ s.active, ∃ j ∈ s.store, j.id = id ∧ j.status = .running
  runningActive : ∀ j ∈ s.store, j.status = .running → j.id ∈ s.active
  idsNodup : (s.store.map JobRec.id).Nodup
  poolBound : s.active.length ≤ s.poolSize

/-- The empty system (no jobs, no live attempts) with a given pool size. -/
def initState (poolSize : Nat) : SysState :=
  { store := [], active := [], poolSize := poolSize }

/-! ## Executable dispatcher claim loop (spec §4.2: FIFO claims) -/

/-- The pending job with the earliest creation time, if any (the
Dispatcher's FIFO claim order, spec §4.2). -/
def firstPending (store : List JobRec) : Option JobRec :=
  (store.filter (fun j => j.status = JobStatus.pending)).foldl
    (fun acc j =>
      match acc with
      | none => some j
      | some k => if j.created_at < k.created_at then some j else some k)
    none

/-- Modelled from the spec: one claim of the Dispatcher's loop (§4.2) —
if a worker slot is free and a pending job exists, transition the
earliest-created one to `running` and occupy a slot. -/
def claimNext (s : SysState) (now : Nat) : Option SysState :=
  if s.active.length < s.poolSize then
    match firstPending s.store with
    | some j => some { s with store := updateJob s.store j.id (startJob now),
                              active := j.id :: s.active }
    | none => none
  else none

/-- Modelled from the spec: the Dispatcher keeps claiming pending jobs
while slots are free (§4.2); fuel bounds the number of claims. -/
def dispatchLoop : Nat → Nat → SysState → SysState
  | 0, _, s => s
  | fuel + 1, now, s =>
    match claimNext s now with
    | some next => dispatchLoop fuel now next
    | none => s

/-- Number of stored jobs in a given status. -/
def countJobs (s : SysState) (st : JobStatus) : Nat :=
  (s.store.filter (fun j => j.status = st)).length

/-! ## Invariant preservation -/

lemma submitJob_ok {form : ConfigForm} {fileRef : String} {id now : Nat}
    {j : JobRec} (h : submitJob form fileRef id now = .ok j) :
    j.id = id ∧ j.status = .pending ∧ j.started_at = none ∧ j.attempt_count = 0 := by
  unfold submitJob at h
  split at h
  · exact absurd h (by simp)
  · cases h
    exact ⟨rfl, rfl, rfl, rfl⟩

lemma mem_updateJob_of_mem (id : Nat) (f : JobRec → JobRec)
    {store : List JobRec} {j : JobRec} (h : j ∈ store) :
    (if j.id = id then f j else j) ∈ updateJob store id f :=
  List.mem_map_of_mem _ h

lemma mem_updateJob_self {store : List JobRec} {id : Nat}
    {f : JobRec → JobRec} {j : JobRec} (h : j ∈ store) (hid : j.id = id) :
    f j ∈ updateJob store id f := by
  have h1 := mem_updateJob_of_mem id f h
  rwa [if_pos hid] at h1

lemma mem_updateJob_of_ne {store : List JobRec} {id : Nat}
    {f : JobRec → JobRec} {j : JobRec} (h : j ∈ store) (hne : j.id ≠ id) :
    j ∈ updateJob store id f := by
  have h1 := mem_updateJob_of_mem id f h
  rwa [if_neg hne] at h1

lemma exists_of_mem_updateJob {store : List JobRec} {id : Nat}
    {f : JobRec → JobRec} {j' : JobRec} (h : j' ∈ updateJob store id f) :
    ∃ j ∈ store, j' = if j.id = id then f j else j := by
  obtain ⟨j, hj, hje⟩ := List.mem_map.mp h
  exact ⟨j, hj, hje.symm⟩

lemma updateJob_map_id (store : List JobRec) (id : Nat) (f : JobRec → JobRec)
    (hf : ∀ k, (f k).id = k.id) :
    (updateJob store id f).map JobRec.id = store.map JobRec.id := by
  unfold updateJob
  rw [List.map_map]
  apply List.map_congr_left
  intro k _
  by_cases h : k.id = id <;> simp [h, hf]

lemma store_id_inj {store : List JobRec} (h : (store.map JobRec.id).Nodup)
    {a b : JobRec} (ha : a ∈ store) (hb : b ∈ store) (hab : a.id = b.id) :
    a = b :=
  List.inj_on_of_nodup_map h ha hb hab

/-- Every orchestration step preserves the core invariant. -/
theorem step_inv {s s' : SysState} (hs : SysInv s) (hstep : Step s s') :
    SysInv s' := by
  cases hstep with
  | submit form fileRef id now j hok hfresh =>
    obtain ⟨hid, hpend, hstart, hatt⟩ := submitJob_ok hok
    refine ⟨hs.activeNodup, ?_, ?_, ?_, hs.poolBound⟩
    · intro a ha
      obtain ⟨k, hk, hkid, hkrun⟩ := hs.activeRunning a ha
      exact ⟨k, List.mem_append_left _ hk, hkid, hkrun⟩
    · intro k hk hkrun
      rcases List.mem_append.mp hk with h | h
      · exact hs.runningActive k h hkrun
      · have hkj : k = j := by simpa using h
        subst hkj
        simp [hpend] at hkrun
    · dsimp only
      rw [List.map_append]
      refine List.Nodup.append hs.idsNodup (by simp) ?_
      intro a ha hb
      obtain ⟨k, hk, rfl⟩ := List.mem_map.mp ha
      have hb' : k.id = j.id := by simpa using hb
      exact hfresh k hk (hb'.trans hid)
  | claim id now j hmem hid hpend hslot =>
    have hnot : id ∉ s.active := by
      intro hin
      obtain ⟨k, hk, hkid, hkrun⟩ := hs.activeRunning id hin
      have hkj : k = j := store_id_inj hs.idsNodup hk hmem (hkid.trans hid.symm)
      subst hkj
      simp [hpend] at hkrun
    refine ⟨List.nodup_cons.mpr ⟨hnot, hs.activeNodup⟩, ?_, ?_, ?_, ?_⟩
    · intro a ha
      rcases List.mem_cons.mp ha with rfl | ha'
      · exact ⟨startJob now j, mem_updateJob_self hmem hid,
          by simpa [startJob] using hid, by simp [startJob]⟩
      · obtain ⟨k, hk, hkid, hkrun⟩ := hs.activeRunning a ha'
        have hkne : k.id ≠ id := by
          intro he
          have hkj : k = j := store_id_inj hs.idsNodup hk hmem (he.trans hid.symm)
          subst hkj
          simp [hpend] at hkrun
        exact ⟨k, mem_updateJob_of_ne hk hkne, hkid, hkrun⟩
    · intro k' hk' hrun'
      obtain ⟨k, hk, hk'eq⟩ := exists_of_mem_updateJob hk'
      by_cases he : k.id = id
      · rw [if_pos he] at hk'eq
        subst hk'eq
        rw [show (startJob now k).id = id from by simpa [startJob] using he]
        exact List.mem_cons_self _ _
      · rw [if_neg he] at hk'eq
        subst k'
        exact List.mem_cons_of_mem _ (hs.runningActive k hk hrun')
    · dsimp only
      rw [updateJob_map_id s.store id (startJob now) (fun k => rfl)]
      exact hs.idsNodup
    · simpa using Nat.succ_le_of_lt hslot
  | finish id outcome hout hmem =>
    refine ⟨hs.activeNodup.erase _, ?_, ?_, ?_, ?_⟩
    · intro a ha
      have hane : a ≠ id ∧ a ∈ s.active :=
        (List.Nodup.mem_erase_iff hs.activeNodup).mp ha
      obtain ⟨k, hk, hkid, hkrun⟩ := hs.activeRunning a hane.2
      have hkne : k.id ≠ id := by rw [hkid]; exact hane.1
      exact ⟨k, mem_updateJob_of_ne hk hkne, hkid, hkrun⟩
    · intro k' hk' hrun'
      obtain ⟨k, hk, hk'eq⟩ := exists_of_mem_updateJob hk'
      by_cases he : k.id = id
      · rw [if_pos he] at hk'eq
        subst hk'eq
        have hrun'' : outcome = .running := by simpa [finishJob] using hrun'
        rcases hout with h | h | h <;> simp [h] at hrun''
      · rw [if_neg he] at hk'eq
        subst k'
        exact (List.mem_erase_of_ne he).mpr (hs.runningActive k hk hrun')
    · dsimp only
      rw [updateJob_map_id s.store id (finishJob outcome) (fun k => rfl)]
      exact hs.idsNodup
    · exact le_trans (List.erase_sublist _ _).length_le hs.poolBound
  | stopPending id j hmem hid hpend =>
    refine ⟨hs.activeNodup, ?_, ?_, ?_, hs.poolBound⟩
    · intro a ha
      obtain ⟨k, hk, hkid, hkrun⟩ := hs.activeRunning a ha
      have hkne : k.id ≠ id := by
        intro he
        have hkj : k = j := store_id_inj hs.idsNodup hk hmem (he.trans hid.symm)
        subst hkj
        simp [hpend] at hkrun
      exact ⟨k, mem_updateJob_of_ne hk hkne, hkid, hkrun⟩
    · intro k' hk' hrun'
      obtain ⟨k, hk, hk'eq⟩ := exists_of_mem_updateJob hk'
      by_cases he : k.id = id
      · rw [if_pos he] at hk'eq
        subst hk'eq
        simp [stopPendingJob] at hrun'
      · rw [if_neg he] at hk'eq
        subst k'
        exact hs.runningActive k hk hrun'
    · dsimp only
      rw [updateJob_map_id s.store id stopPendingJob (fun k => rfl)]
      exact hs.idsNodup
  | stopRunning id j hmem hid hrun =>
    refine ⟨hs.activeNodup, ?_, ?_, ?_, hs.poolBound⟩
    · intro a ha
      obtain ⟨k, hk, hkid, hkrun⟩ := hs.activeRunning a ha
      by_cases he : k.id = id
      · exact ⟨flagCancel k, mem_updateJob_self hk he,
          by simpa [flagCancel] using hkid, by simpa [flagCancel] using hkrun⟩
      · exact ⟨k, mem_updateJob_of_ne hk he, hkid, hkrun⟩
    · intro k' hk' hrun'
      obtain ⟨k, hk, hk'eq⟩ := exists_of_mem_updateJob hk'
      by_cases he : k.id = id
      · rw [if_pos he] at hk'eq
        subst hk'eq
        have hkr : k.status = .running := by simpa [flagCancel] using hrun'
        simpa [flagCancel] using hs.runningActive k hk hkr
      · rw [if_neg he] at hk'eq
        subst k'
        exact hs.runningActive k hk hrun'
    · dsimp only
      rw [updateJob_map_id s.store id flagCancel (fun k => rfl)]
      exact hs.idsNodup
  | restart id j hmem hid hfs =>
    refine ⟨hs.activeNodup, ?_, ?_, ?_, hs.poolBound⟩
    · intro a ha
      obtain ⟨k, hk, hkid, hkrun⟩ := hs.activeRunning a ha
      have hkne : k.id ≠ id := by
        intro he
        have hkj : k = j := store_id_inj hs.idsNodup hk hmem (he.trans hid.symm)
        subst hkj
        rcases hfs with h | h <;> simp [h] at hkrun
      exact ⟨k, mem_updateJob_of_ne hk hkne, hkid, hkrun⟩
    · intro k' hk' hrun'
      obtain ⟨k, hk, hk'eq⟩ := exists_of_mem_updateJob hk'
      by_cases he : k.id = id
      · rw [if_pos he] at hk'eq
        subst hk'eq
        simp [restartJob] at hrun'
      · rw [if_neg he] at hk'eq
        subst k'
        exact hs.runningActive k hk hrun'
    · dsimp only
      rw [updateJob_map_id s.store id restartJob (fun k => rfl)]
      exact hs.idsNodup

/-- Invariants propagate along any reachable execution. -/
theorem reach_inv {s s' : SysState} (hs : SysInv s) (h : Reach s s') :
    SysInv s' := by
  induction h with
  | refl => exact hs
  | tail _ hstep ih => exact step_inv ih hstep

/-- The empty system satisfies the invariant. -/
theorem initState_inv (poolSize : Nat) : SysInv (initState poolSize) := by
  constructor <;> simp [initState]

/-! ## The executable claim loop realizes orchestration steps -/

lemma foldl_min_mem :
    ∀ (l : List JobRec) (acc : Option JobRec) (j : JobRec),
      l.foldl (fun acc j => match acc with
        | none => some j
        | some k => if j.created_at < k.created_at then some j else some k) acc
        = some j →
      acc = some j ∨ j ∈ l := by
  intro l
  induction l with
  | nil =>
    intro acc j h
    exact Or.inl h
  | cons x xs ih =>
    intro acc j h
    simp only [List.foldl_cons] at h
    rcases ih _ _ h with h' | h'
    · cases acc with
      | none =>
        simp only [] at h'
        exact Or.inr (List.mem_cons.mpr (Or.inl (Option.some_injective _ h').symm))
      | some k =>
        simp only [] at h'
        by_cases hlt : x.created_at < k.created_at
        · rw [if_pos hlt] at h'
          exact Or.inr (List.mem_cons.mpr (Or.inl (Option.some_injective _ h').symm))
        · rw [if_neg hlt] at h'
          exact Or.inl h'
    · exact Or.inr (List.mem_cons_of_mem _ h')

lemma firstPending_spec {store : List JobRec} {j : JobRec}
    (h : firstPending store = some j) : j ∈ store ∧ j.status = .pending := by
  unfold firstPending at h
  rcases foldl_min_mem _ _ _ h with h' | h'
  · exact absurd h' (by simp)
  · have hm := List.mem_filter.mp h'
    exact ⟨hm.1, by simpa using hm.2⟩

/-- Each successful claim of the executable loop is a legal `claim` step. -/
theorem claimNext_sound {s s' : SysState} {now : Nat}
    (h : claimNext s now = some s') : Step s s' := by
  unfold claimNext at h
  split at h
  · split at h
    · next j heq =>
      cases h
      obtain ⟨hmem, hpend⟩ := firstPending_spec heq
      exact Step.claim s j.id now j hmem rfl hpend (by assumption)
    · exact absurd h (by simp)
  · exact absurd h (by simp)

/-- The dispatcher loop only moves along reachable states. -/
theorem dispatchLoop_reach (fuel now : Nat) (s : SysState) :
    Reach s (dispatchLoop fuel now s) := by
  induction fuel generalizing s with
  | zero => exact Relation.ReflTransGen.refl
  | succ n ih =>
    rw [dispatchLoop]
    cases h : claimNext s now with
    | some next =>
      exact Relation.ReflTransGen.head (claimNext_sound h) (ih next)
    | none => exact Relation.ReflTransGen.refl

/-! ## Concrete sample data (the spec §8 scenario: pool size 2, five
pending jobs submitted together) -/

/-- The default `training_params` of `TrainingConfig.tsx` (lines 22-32). -/
def defaultParams : TrainingParams :=
  { model_name := "meta-llama/Llama-2-7b-chat-hf", epochs := 3, batch_size := 4,
    learning_rate := 2 / 10000, use_fp16 := true, use_quantization := false,
    lora_r := 16, lora_alpha := 32, lora_dropout := 1 / 10 }

/-- A freshly submitted `pending` job, as `submitJob` persists it. -/
def mkPendingJob (id : Nat) : JobRec :=
  { id := id, job_name := "job", upload_filename := "grades.csv",
    status := .pending, params := defaultParams, attempt_count := 0,
    created_at := id, started_at := none, completed_at := none,
    cancel_requested := false, artifact := none }

/-- Pool of two worker slots with five pending jobs, none claimed yet. -/
def fiveJobsState : SysState :=
  { store := [mkPendingJob 1, mkPendingJob 2, mkPendingJob 3,
              mkPendingJob 4, mkPendingJob 5],
    active := [], poolSize := 2 }

theorem fiveJobsState_inv : SysInv fiveJobsState := by
  constructor <;> decide

/-! ## Claim theorems -/

lemma validateConfig_ne_nil (config : ConfigForm)
    (h : outOfRange config.training_params) : validateConfig config ≠ [] := by
  unfold validateConfig
  rcases h with h | h | h | h | h | h | h | h <;> simp [h]

/-- C1: for every job id, at most one attempt of that job is live
(`running`) at any reachable instant — the dispatcher's active-attempt
list never holds a job id twice — and every restart increments the job's
attempt count by exactly one. -/
theorem c1_at_most_one_running_attempt :
    (∀ s s' : SysState, SysInv s → Reach s s' →
      ∀ id : Nat, s'.active.count id ≤ 1) ∧
    (∀ j j' : JobRec, requestRestart j = .ok j' →
      j'.attempt_count = j.attempt_count + 1) := by
  constructor
  · intro s s' hs hr id
    exact List.nodup_iff_count_le_one.mp (reach_inv hs hr).activeNodup id
  · intro j j' h
    cases hst : j.status <;> simp [requestRestart, hst] at h <;>
      simp [← h, restartJob]

/-- C1 witness: after dispatching the five-job scenario, job 1 holds at
most one live attempt, and restarting a concrete failed job bumps its
attempt count from 0 to 1. -/
theorem c1_at_most_one_running_attempt_witness :
    (dispatchLoop 5 0 fiveJobsState).active.count 1 ≤ 1 ∧
    (restartJob { mkPendingJob 1 with status := .failed }).attempt_count =
      { mkPendingJob 1 with status := .failed }.attempt_count + 1 :=
  ⟨c1_at_most_one_running_attempt.1 fiveJobsState _ fiveJobsState_inv
      (dispatchLoop_reach 5 0 fiveJobsState) 1,
   c1_at_most_one_running_attempt.2 { mkPendingJob 1 with status := .failed }
      (restartJob { mkPendingJob 1 with status := .failed }) rfl⟩

/-- C2: submitting a configuration with any parameter out of its
documented range (epochs outside 1..50, batch size outside 1..32,
learning rate not strictly between 0 and 1, LoRA rank outside 4..128)
fails with a validation error, never issues the job-creation request, and
the backend submit would likewise reject it with `InvalidConfiguration`
before persisting anything. -/
theorem c2_out_of_range_never_persists :
    ∀ (config : ConfigForm) (uploadedFile : Option UploadedFile),
      outOfRange config.training_params →
      (∃ msgs, handleSubmit config uploadedFile = .validationError msgs ∧ msgs ≠ []) ∧
      (∀ jobData filePath,
        handleSubmit config uploadedFile ≠ .jobCreateRequest jobData filePath) ∧
      (∀ fileRef id now,
        submitJob config fileRef id now = .error .InvalidConfiguration) := by
  intro config uploadedFile h
  have hne : validateConfig config ≠ [] := validateConfig_ne_nil config h
  have hpos : (validateConfig config).length > 0 := List.length_pos.mpr hne
  have hsub : handleSubmit config uploadedFile = .validationError (validateConfig config) := by
    unfold handleSubmit
    simp [hpos]
  refine ⟨⟨validateConfig config, hsub, hne⟩, ?_, ?_⟩
  · intro jobData filePath
    rw [hsub]
    simp
  · intro fileRef id now
    unfold submitJob
    simp [hpos]

/-- A configuration with batch size 0 (otherwise default parameters). -/
def zeroBatchConfig : ConfigForm :=
  { job_name := "作业评分模型", training_params := { defaultParams with batch_size := 0 } }

/-- C2 witness: the batch-size-0 configuration is rejected and never
turns into a job-creation request. -/
theorem c2_out_of_range_never_persists_witness :
    handleSubmit zeroBatchConfig (some { filename := "grades.csv", file_path := "up/grades.csv" })
      ≠ .jobCreateRequest zeroBatchConfig "up/grades.csv" :=
  (c2_out_of_range_never_persists zeroBatchConfig
      (some { filename := "grades.csv", file_path := "up/grades.csv" })
      (Or.inr (Or.inr (Or.inl (by decide))))).2.1 zeroBatchConfig "up/grades.csv"

/-- C3: a stop request is accepted exactly for `pending`/`running` jobs;
on a `pending` job it finalizes directly to `stopped` without touching
the start timestamp, and a freshly submitted job is `pending` with no
`started_at`, so the stopped job never carries one. -/
theorem c3_stop_pending_goes_stopped :
    (∀ j : JobRec, (∃ j', requestStop j = .ok j') ↔
      (j.status = .pending ∨ j.status = .running)) ∧
    (∀ j : JobRec, j.status = .pending →
      requestStop j = .ok (stopPendingJob j) ∧
      (stopPendingJob j).status = .stopped ∧
      (stopPendingJob j).started_at = j.started_at) ∧
    (∀ (form : ConfigForm) (fileRef : String) (id now : Nat) (j : JobRec),
      submitJob form fileRef id now = .ok j →
      j.status = .pending ∧ j.started_at = none) := by
  refine ⟨?_, ?_, ?_⟩
  · intro j
    cases hst : j.status <;> simp [requestStop, hst]
  · intro j h
    refine ⟨by simp [requestStop, h], by simp [stopPendingJob], by simp [stopPendingJob]⟩
  · intro form fileRef id now j h
    obtain ⟨_, hp, hs, _⟩ := submitJob_ok h
    exact ⟨hp, hs⟩

/-- C3 witness: stopping the concrete pending job 1 yields `stopped` with
its (absent) start timestamp untouched. -/
theorem c3_stop_pending_goes_stopped_witness :
    requestStop (mkPendingJob 1) = .ok (stopPendingJob (mkPendingJob 1)) ∧
    (stopPendingJob (mkPendingJob 1)).status = .stopped ∧
    (stopPendingJob (mkPendingJob 1)).started_at = (mkPendingJob 1).started_at :=
  c3_stop_pending_goes_stopped.2.1 (mkPendingJob 1) rfl

/-- C4: the restart button is offered exactly for `failed`/`stopped`
jobs, and the restart operation itself succeeds exactly there — for any
other status (in particular `completed`) it fails with
`InvalidTransition` and the button is not rendered. -/
theorem c4_restart_only_failed_stopped :
    (∀ st : JobStatus, showsRestartButton st = true ↔
      (st = .failed ∨ st = .stopped)) ∧
    (∀ j : JobRec, (∃ j', requestRestart j = .ok j') ↔
      (j.status = .failed ∨ j.status = .stopped)) ∧
    (∀ j : JobRec, j.status ≠ .failed → j.status ≠ .stopped →
      requestRestart j = .error .InvalidTransition) ∧
    (∀ j : JobRec, j.status = .completed →
      requestRestart j = .error .InvalidTransition ∧
      showsRestartButton j.status = false) := by
  refine ⟨?_, ?_, ?_, ?_⟩
  · intro st
    cases st <;> simp [showsRestartButton]
  · intro j
    cases hst : j.status <;> simp [requestRestart, hst]
  · intro j h1 h2
    cases hst : j.status <;> simp_all [requestRestart]
  · intro j h
    exact ⟨by simp [requestRestart, h], by simp [showsRestartButton, h]⟩

/-- C4 witness: restarting the concrete completed job 1 is rejected with
`InvalidTransition` and its restart button is not rendered. -/
theorem c4_restart_only_failed_stopped_witness :
    requestRestart { mkPendingJob 1 with status := .completed } =
      .error .InvalidTransition ∧
    showsRestartButton { mkPendingJob 1 with status := .completed }.status = false :=
  c4_restart_only_failed_stopped.2.2.2 { mkPendingJob 1 with status := .completed } rfl

/-- C5: deploy without an artifact fails with `NotCompleted`; a second
deploy of an already-deployed artifact succeeds and leaves the state
unchanged; undeploy is idempotent and clears the endpoint. -/
theorem c5_deploy_undeploy_idempotent :
    (∀ endpoint : String, deployArtifact none endpoint = .error .NotCompleted) ∧
    (∀ (a : ModelArtifact) (endpoint : String) (a' : ModelArtifact),
      deployArtifact (some a) endpoint = .ok a' →
      deployArtifact (some a') endpoint = .ok a') ∧
    (∀ a : ModelArtifact,
      undeployArtifact (undeployArtifact a) = undeployArtifact a ∧
      (undeployArtifact a).is_deployed = false ∧
      (undeployArtifact a).api_endpoint = none) := by
  refine ⟨fun _ => rfl, ?_, ?_⟩
  · intro a endpoint a' h
    simp only [deployArtifact, Except.ok.injEq] at h
    subst h
    rfl
  · intro a
    exact ⟨rfl, rfl, rfl⟩

/-- A concrete artifact of job 1, produced at completion, not deployed. -/
def sampleArtifact : ModelArtifact :=
  { job_id := 1, model_path := "models/1", is_deployed := false, api_endpoint := none }

/-- C5 witness: re-deploying the deployed form of the sample artifact
succeeds and returns it unchanged. -/
theorem c5_deploy_undeploy_idempotent_witness :
    deployArtifact
      (some { sampleArtifact with is_deployed := true, api_endpoint := some "api/models/1" })
      "api/models/1" =
    .ok { sampleArtifact with is_deployed := true, api_endpoint := some "api/models/1" } :=
  c5_deploy_undeploy_idempotent.2.1 sampleArtifact "api/models/1"
    { sampleArtifact with is_deployed := true, api_endpoint := some "api/models/1" } rfl

/-- C6: the dispatcher never holds more live attempts than worker slots
on any reachable state, and in the spec §8 scenario (pool size 2, five
pending jobs) exactly 2 jobs become `running` and 3 stay `pending`. -/
theorem c6_pool_never_exceeded :
    (∀ s s' : SysState, SysInv s → Reach s s' →
      s'.active.length ≤ s'.poolSize) ∧
    countJobs (dispatchLoop 5 0 fiveJobsState) .running = 2 ∧
    countJobs (dispatchLoop 5 0 fiveJobsState) .pending = 3 ∧
    (dispatchLoop 5 0 fiveJobsState).active.length = 2 := by
  refine ⟨?_, by decide, by decide, by decide⟩
  intro s s' hs hr
  exact (reach_inv hs hr).poolBound

/-- C6 witness: the dispatched five-job scenario respects its pool
bound. -/
theorem c6_pool_never_exceeded_witness :
    (dispatchLoop 5 0 fiveJobsState).active.length ≤
      (dispatchLoop 5 0 fiveJobsState).poolSize :=
  c6_pool_never_exceeded.1 fiveJobsState _ fiveJobsState_inv
    (dispatchLoop_reach 5 0 fiveJobsState)

/-- C7: `getLogs` accepts skip/limit pagination and an optional level
filter and returns the job's entries as an in-order sublist of its
persisted append order; appends for other jobs never change the result;
and the progress view displays the reverse (newest first) of the
oldest-first page it fetched. -/
theorem c7_logs_ordered_paginated :
    (∀ (store : List TrainingLogEntry) (jobId skip limit : Nat)
      (levelFilter : Option LogLevel),
      (getLogs store jobId skip limit levelFilter).Sublist (jobLogs store jobId)) ∧
    (∀ (store : List TrainingLogEntry) (e : TrainingLogEntry)
      (jobId skip limit : Nat) (levelFilter : Option LogLevel),
      e.job_id ≠ jobId →
      getLogs (appendLog store e) jobId skip limit levelFilter =
        getLogs store jobId skip limit levelFilter) ∧
    (∀ (store : List TrainingLogEntry) (jobId : Nat),
      displayedLogs store jobId = (getLogs store jobId 0 100 none).reverse) := by
  refine ⟨?_, ?_, fun _ _ => rfl⟩
  · intro store jobId skip limit levelFilter
    exact ((List.take_sublist _ _).trans (List.drop_sublist _ _)).trans
      (List.filter_sublist _)
  · intro store e jobId skip limit levelFilter h
    have hjl : jobLogs (appendLog store e) jobId = jobLogs store jobId := by
      simp [appendLog, jobLogs, List.filter_append, h]
    unfold getLogs
    rw [hjl]

/-- Two concrete log entries for different jobs. -/
def job1Entry : TrainingLogEntry :=
  { id := 1, job_id := 1, log_level := .info, message := "epoch 1 started" }

/-- A log entry of job 2, appended after job 1's entry. -/
def job2Entry : TrainingLogEntry :=
  { id := 2, job_id := 2, log_level := .warning, message := "high loss" }

/-- C7 witness: appending job 2's entry leaves job 1's log page
unchanged. -/
theorem c7_logs_ordered_paginated_witness :
    getLogs (appendLog [job1Entry] job2Entry) 1 0 100 none =
      getLogs [job1Entry] 1 0 100 none :=
  c7_logs_ordered_paginated.2.1 [job1Entry] job2Entry 1 0 100 none (by decide)

/-- C8: a failed accelerator query (or an absent accelerator) is reported
as a snapshot whose GPU section has `available = false` (with the error
recorded) — `gpuSection` is a total function, nothing is thrown — and the
Dashboard renders the no-GPU placeholder for every such snapshot instead
of crashing. -/
theorem c8_gpu_failure_degrades :
    (∀ m : String, (gpuSection (.failed m)).available = false ∧
      (gpuSection (.failed m)).error = some m) ∧
    (gpuSection (.ok [])).available = false ∧
    (∀ q : GpuQueryResult, (gpuSection q).available = false →
      dashboardGpuSection (some (gpuSection q)) = .noGpuMessage) ∧
    dashboardGpuSection none = .noGpuMessage := by
  refine ⟨fun m => ⟨rfl, rfl⟩, rfl, ?_, rfl⟩
  intro q h
  simp [dashboardGpuSection, h]

/-- C8 witness: a concrete NVML failure renders the no-GPU placeholder. -/
theorem c8_gpu_failure_degrades_witness :
    dashboardGpuSection (some (gpuSection (.failed "NVML not found"))) =
      .noGpuMessage :=
  c8_gpu_failure_degrades.2.2.1 (.failed "NVML not found")
    (c8_gpu_failure_degrades.1 "NVML not found").1

/-- C9: both percentage helpers are total: they return 0 when no snapshot
exists or the respective total is 0, and otherwise the rounded
current/total ratio times 100. -/
theorem c9_percentages_total :
    getProgressPercentage none = 0 ∧ getStepProgressPercentage none = 0 ∧
    (∀ p : ProgressSnapshot, p.total_epochs = 0 →
      getProgressPercentage (some p) = 0) ∧
    (∀ p : ProgressSnapshot, p.total_epochs ≠ 0 →
      getProgressPercentage (some p) = round (p.current_epoch / p.total_epochs * 100)) ∧
    (∀ p : ProgressSnapshot, p.total_steps = 0 →
      getStepProgressPercentage (some p) = 0) ∧
    (∀ p : ProgressSnapshot, p.total_steps ≠ 0 →
      getStepProgressPercentage (some p) = round (p.current_step / p.total_steps * 100)) := by
  refine ⟨rfl, rfl, ?_, ?_, ?_, ?_⟩ <;> intro p h <;>
    simp [getProgressPercentage, getStepProgressPercentage, h]

/-- A concrete snapshot: epoch 1 of 2, step 30 of 120. -/
def sampleSnapshot : ProgressSnapshot :=
  { job_id := 1, current_epoch := 1, total_epochs := 2,
    current_step := 30, total_steps := 120,
    current_loss := some (3 / 2), average_loss := none,
    learning_rate := some (2 / 10000), elapsed_time := none,
    estimated_remaining := none }

/-- C9 witness: on the concrete snapshot the epoch percentage is the
rounded ratio. -/
theorem c9_percentages_total_witness :
    getProgressPercentage (some sampleSnapshot) =
      round (sampleSnapshot.current_epoch / sampleSnapshot.total_epochs * 100) :=
  c9_percentages_total.2.2.2.1 sampleSnapshot (by norm_num [sampleSnapshot])

/-- C10: for any status string outside the four mapped ones (in
particular `stopped`), the Dashboard badge falls back to
`status-pending` and the recent-jobs list renders no status label. -/
theorem c10_unknown_status_fallback :
    ∀ status : String, status ≠ "pending" → status ≠ "running" →
      status ≠ "completed" → status ≠ "failed" →
      getStatusBadge status = "status-pending" ∧
      recentJobStatusLabel status = none := by
  intro s h1 h2 h3 h4
  exact ⟨by simp [getStatusBadge, h1, h2, h3, h4],
         by simp [recentJobStatusLabel, h1, h2, h3, h4]⟩

/-- C10 witness: a `stopped` job gets the pending badge class and no
label text. -/
theorem c10_unknown_status_fallback_witness :
    getStatusBadge "stopped" = "status-pending" ∧
    recentJobStatusLabel "stopped" = none :=
  c10_unknown_status_fallback "stopped" (by decide) (by decide) (by decide) (by decide)
